/-
Verification of the core of the RAG-File-Search single-page application:
the session lifecycle controller (`App`), the credential gate (`checkApiKey`),
the welcome-screen upload handler, and the markdown-to-markup renderer of
`ChatInterface`.  Each TypeScript function is shallowly embedded as a Lean
function; asynchronous collaborator calls (`geminiService`) are modelled by
an explicit environment record of `Except`-valued outcomes, and `throw`
statements by an explicit `threw` flag in the operation's result.
-/
import Mathlib

namespace RagSearch

/-! ### Inline substitution (ChatInterface.renderMarkdown, lines 47-50)

The three chained JavaScript `String.replace` calls with global regexes are
embedded as left-to-right scans over the character list.  Each scanner is
written with an explicit fuel argument (structural recursion) so that the
kernel can evaluate it; the wrapper passes `cs.length` as fuel, which is
always sufficient because every recursion step consumes at least one input
character. -/

/-- Backquote character (code 96), written numerically. -/
def btick : Char := Char.ofNat 96

/-- Split `cs` at the first occurrence of the two-character sequence `m m`:
returns the part before it and the part after it.  This is the non-greedy
closing-delimiter search of `(.*?)` followed by a doubled marker. -/
def splitAtDouble (m : Char) : List Char → Option (List Char × List Char)
  | a :: b :: rest =>
    if a = m ∧ b = m then some ([], rest)
    else
      match splitAtDouble m (b :: rest) with
      | some (pre, post) => some (a :: pre, post)
      | none => none
  | _ => none

/-- Split `cs` at the first occurrence of the character `m`. -/
def splitAtSingle (m : Char) : List Char → Option (List Char × List Char)
  | [] => none
  | a :: rest =>
    if a = m then some ([], rest)
    else
      match splitAtSingle m rest with
      | some (pre, post) => some (a :: pre, post)
      | none => none

/-- One pass of `/\*\*(.*?)\*\*|__(.*?)__/g → '<strong>$1$2</strong>'`:
at each position, a doubled `*` or `_` marker with a later matching doubled
closer is replaced by a strong span (the replacement is not rescanned);
otherwise the scanner advances one character. -/
def boldSubAuxF : Nat → List Char → List Char
  | _, [] => []
  | 0, c :: rest => c :: rest
  | fuel + 1, c :: rest =>
    if c = '*' ∨ c = '_' then
      match rest with
      | d :: rtail =>
        if d = c then
          match splitAtDouble c rtail with
          | some (pre, post) =>
              "<strong>".data ++ pre ++ "</strong>".data ++ boldSubAuxF fuel post
          | none => c :: boldSubAuxF fuel rest
        else c :: boldSubAuxF fuel rest
      | [] => [c]
    else c :: boldSubAuxF fuel rest

/-- One pass of `/\*(.*?)\*|_(.*?)_/g → '<em>$1$2</em>'`. -/
def emSubAuxF : Nat → List Char → List Char
  | _, [] => []
  | 0, c :: rest => c :: rest
  | fuel + 1, c :: rest =>
    if c = '*' ∨ c = '_' then
      match splitAtSingle c rest with
      | some (pre, post) =>
          "<em>".data ++ pre ++ "</em>".data ++ emSubAuxF fuel post
      | none => c :: emSubAuxF fuel rest
    else c :: emSubAuxF fuel rest

/-- Opening tag of an inline code span, including its CSS classes. -/
def codeOpenTag : String :=
  "<code class=\"bg-gem-mist/50 px-1 py-0.5 rounded-sm font-mono text-sm text-gem-offwhite\">"

/-- One pass of ``/`([^`]+)`/g → '<code ...>$1</code>'``: a backquote
followed by a nonempty run of non-backquote characters and a closing
backquote becomes a code span; a backquote with no such closer (or with an
immediately following backquote) is emitted literally. -/
def codeSubAuxF : Nat → List Char → List Char
  | _, [] => []
  | 0, c :: rest => c :: rest
  | fuel + 1, c :: rest =>
    if c = btick then
      match splitAtSingle btick rest with
      | some (pre, post) =>
        if pre = [] then c :: codeSubAuxF fuel rest
        else codeOpenTag.data ++ pre ++ "</code>".data ++ codeSubAuxF fuel post
      | none => c :: codeSubAuxF fuel rest
    else c :: codeSubAuxF fuel rest

/-- Bold substitution on a line (`line.replace(/\*\*(.*?)\*\*|__(.*?)__/g, ...)`). -/
def boldSub (s : String) : String := String.mk (boldSubAuxF s.data.length s.data)

/-- Emphasis substitution on a line (`line.replace(/\*(.*?)\*|_(.*?)_/g, ...)`). -/
def emSub (s : String) : String := String.mk (emSubAuxF s.data.length s.data)

/-- Inline-code substitution on a line. -/
def codeSub (s : String) : String := String.mk (codeSubAuxF s.data.length s.data)

/-- The full inline substitution applied to each raw line, in the fixed
source order: bold first, then emphasis, then inline code
(ChatInterface lines 47-50). -/
def inlineSub (s : String) : String := codeSub (emSub (boldSub s))

/-! ### Line classification and the block-level loop (ChatInterface lines 27-84) -/

/-- `line.match(/^\s*\d+\.\s(.*)/)` : optional leading whitespace, one or
more digits, a period, one whitespace character, then the captured rest of
the line.  Returns the capture. -/
def matchOl (l : String) : Option String :=
  let cs := l.data.dropWhile (fun c => c.isWhitespace)
  let ds := cs.takeWhile (fun c => c.isDigit)
  let rest := cs.dropWhile (fun c => c.isDigit)
  if ds.isEmpty then none
  else
    match rest with
    | '.' :: w :: tail => if w.isWhitespace then some (String.mk tail) else none
    | _ => none

/-- `line.match(/^\s*[\*\-]\s(.*)/)` : optional leading whitespace, a `*`
or `-`, one whitespace character, then the captured rest of the line. -/
def matchUl (l : String) : Option String :=
  match l.data.dropWhile (fun c => c.isWhitespace) with
  | c :: w :: tail =>
    if (c = '*' ∨ c = '-') ∧ w.isWhitespace then some (String.mk tail) else none
  | _ => none

/-- `line.trim()` : strip leading and trailing whitespace, character-wise. -/
def trimStr (s : String) : String :=
  String.mk (((s.data.dropWhile Char.isWhitespace).reverse.dropWhile Char.isWhitespace).reverse)

/-- The two list kinds tracked by the `listType` variable. -/
inductive ListKind
  | ul
  | ol
deriving DecidableEq, Repr

/-- Opening tag emitted when an ordered list starts. -/
def olOpenTag : String := "<ol class=\"list-decimal list-inside my-2 pl-5 space-y-1\">"

/-- Opening tag emitted when an unordered list starts. -/
def ulOpenTag : String := "<ul class=\"list-disc list-inside my-2 pl-5 space-y-1\">"

/-- Closing tag for an open list (`</${listType}>`). -/
def closeTag : ListKind → String
  | ListKind.ul => "</ul>"
  | ListKind.ol => "</ol>"

/-- The mutable locals of `renderMarkdown`: the accumulated markup, the
currently open list (if any), and the paragraph buffer. -/
structure RState where
  html : String
  listType : Option ListKind
  paraBuffer : String
deriving DecidableEq, Repr

/-- `flushPara()` : a nonempty paragraph buffer is emitted as one
`<p class="my-2">` block and the buffer is reset. -/
def flushPara (s : RState) : RState :=
  if s.paraBuffer = "" then s
  else { s with html := s.html ++ "<p class=\"my-2\">" ++ s.paraBuffer ++ "</p>",
                paraBuffer := "" }

/-- `flushList()` : an open list is closed with its closing tag. -/
def flushList (s : RState) : RState :=
  match s.listType with
  | none => s
  | some k => { s with html := s.html ++ closeTag k, listType := none }

/-- The body of the `for (const rawLine of lines)` loop: inline
substitution, then ordered-list / unordered-list / blank / paragraph
dispatch. -/
def stepLine (s : RState) (rawLine : String) : RState :=
  let line := inlineSub rawLine
  match matchOl line with
  | some item =>
    let s1 := flushPara s
    let s2 :=
      if s1.listType = some ListKind.ol then s1
      else
        let t := flushList s1
        { t with html := t.html ++ olOpenTag, listType := some ListKind.ol }
    { s2 with html := s2.html ++ "<li>" ++ item ++ "</li>" }
  | none =>
    match matchUl line with
    | some item =>
      let s1 := flushPara s
      let s2 :=
        if s1.listType = some ListKind.ul then s1
        else
          let t := flushList s1
          { t with html := t.html ++ ulOpenTag, listType := some ListKind.ul }
      { s2 with html := s2.html ++ "<li>" ++ item ++ "</li>" }
    | none =>
      let s1 := flushList s
      if trimStr line = "" then flushPara s1
      else { s1 with paraBuffer :=
               s1.paraBuffer ++ (if s1.paraBuffer = "" then "" else "<br/>") ++ line }

/-- `text.split('\n')` on the character list: every occurrence of the
newline separates two (possibly empty) pieces; the empty input yields one
empty piece. -/
def splitNl : List Char → List (List Char)
  | [] => [[]]
  | c :: rest =>
    if c = '\n' then [] :: splitNl rest
    else
      match splitNl rest with
      | g :: gs => (c :: g) :: gs
      | [] => [[c]]

/-- The lines of the input text, as strings. -/
def linesOf (s : String) : List String := (splitNl s.data).map (fun l => String.mk l)

/-- `ChatInterface.renderMarkdown` (lines 24-85): empty input renders to
the empty markup; otherwise the lines are folded through `stepLine`
starting from an empty state, and at end of input the paragraph buffer and
then any open list are flushed. -/
def renderMarkdown (text : String) : String :=
  if text = "" then ""
  else
    let final := (linesOf text).foldl stepLine { html := "", listType := none, paraBuffer := "" }
    (flushList (flushPara final)).html

/-! ### Application state (App.tsx)

The `useState` hooks of the `App` component are collected into one record;
`ragStoreNameRef` is kept in sync with `activeRagStoreName` by a
`useEffect`, so it is modelled as equal to it. -/

/-- The `AppStatus` enumeration (values used by App.tsx). -/
inductive AppStatus
  | Initializing
  | Welcome
  | Uploading
  | Chatting
  | Error
deriving DecidableEq, Repr

/-- A selected file: only its name is observable to the controller. -/
structure FileRec where
  name : String
deriving DecidableEq, Repr

/-- One entry of `uploadProgress`. -/
structure UploadProgress where
  current : Nat
  total : Nat
  message : String
  fileName : Option String
deriving DecidableEq, Repr

/-- One part of a chat message (`parts: [{ text }]`). -/
structure MessagePart where
  text : String
deriving DecidableEq, Repr

/-- A grounding chunk attached to a model turn; only the optional
`retrievedContext.text` field is used by the view. -/
structure GroundingChunk where
  retrievedContext : Option String
deriving DecidableEq, Repr

/-- Chat roles. -/
inductive Role
  | user
  | model
deriving DecidableEq, Repr

/-- A `ChatMessage`. -/
structure ChatMessage where
  role : Role
  parts : List MessagePart
  groundingChunks : Option (List GroundingChunk)
deriving DecidableEq, Repr

/-- The state hooks of the `App` component. -/
structure AppState where
  status : AppStatus
  isApiKeySelected : Bool
  apiKeyError : Option String
  error : Option String
  uploadProgress : Option UploadProgress
  activeRagStoreName : Option String
  chatHistory : List ChatMessage
  isQueryLoading : Bool
  documentName : String
  files : List FileRec
deriving DecidableEq, Repr

/-- `handleError` (App.tsx lines 309-313): records the error text and moves
the status to `Error`.  Errors are modelled as their message strings; the
JavaScript truthiness test `err ?` makes the empty string omit the colon
part. -/
def handleError (message : String) (e : String) (s : AppState) : AppState :=
  { s with error := some (if e = "" then message else message ++ ": " ++ e),
           status := AppStatus.Error }

/-- `checkApiKey` (App.tsx lines 259-269).  The host capability
`window.aistudio?.hasSelectedApiKey` is modelled as
`none` (capability absent), `some (.ok b)` (resolves with `b`) or
`some (.error ())` (rejects). -/
def checkApiKey (cap : Option (Except Unit Bool)) (s : AppState) : AppState :=
  match cap with
  | none => s
  | some (Except.ok hasKey) => { s with isApiKeySelected := hasKey }
  | some (Except.error _) => { s with isApiKeySelected := false }

/-! ### Sub-string classification of indexing errors (App.tsx lines 393-394) -/

/-- Does `pat` occur at the start of `cs`? -/
def startsWithL : List Char → List Char → Bool
  | [], _ => true
  | _ :: _, [] => false
  | p :: ps, c :: cs => p = c && startsWithL ps cs

/-- Does `pat` occur anywhere in `cs`?  (JavaScript `String.includes`.) -/
def containsSubL (pat : List Char) : List Char → Bool
  | [] => startsWithL pat []
  | c :: rest => startsWithL pat (c :: rest) || containsSubL pat rest

/-- `s.includes(pat)`. -/
def containsSub (s pat : String) : Bool := containsSubL pat.data s.data

/-- `s.toLowerCase()`, as a character-wise map. -/
def toLowerStr (s : String) : String := String.mk (s.data.map Char.toLower)

/-- The credential-error test of App.tsx line 394, applied to the lowercased
error message. -/
def isCredMessage (e : String) : Bool :=
  containsSub (toLowerStr e) "api key not valid" ||
    containsSub (toLowerStr e) "requested entity was not found"

/-- The `catch` block of `handleUploadAndStartChat` (lines 392-400):
credential-classified failures un-set the key flag, surface a
key-specific message and return to `Welcome`; all other failures go
through `handleError`. -/
def classifyIndexError (e : String) (s : AppState) : AppState :=
  if isCredMessage e then
    { s with apiKeyError := some "The selected API key is invalid. Please select a different one and try again.",
             isApiKeySelected := false,
             status := AppStatus.Welcome }
  else handleError "Failed to start chat session" e s

/-- The `finally` block of `handleUploadAndStartChat` (line 403). -/
def clearProgress (s : AppState) : AppState := { s with uploadProgress := none }

/-- `docName` computation of `handleUploadAndStartChat` (lines 378-385). -/
def docNameOf : List FileRec → String
  | [f] => f.name
  | [f, g] => f.name ++ " & " ++ g.name
  | fs => toString fs.length ++ " documents"

/-! ### The indexing operation (App.tsx `handleUploadAndStartChat`, lines 338-405)

The `geminiService` collaborator is modelled by an environment of
outcomes; `Date.now()` by `env.now`.  The operation's result records the
final state, every non-null `setUploadProgress` value in call order, the
store names whose creation was requested, and whether the `async` function
rejected (`threw`). -/

/-- Outcomes of the `geminiService` collaborator during one indexing
attempt.  `ingestResult i` is the outcome of uploading the `i`-th file. -/
structure GeminiEnv where
  now : Nat
  initResult : Except String Unit
  createResult : String → Except String String
  ingestResult : Nat → Except String Unit

/-- Result of one `handleUploadAndStartChat` call. -/
structure UploadOutcome where
  state : AppState
  updates : List UploadProgress
  createCalls : List String
  threw : Bool
deriving DecidableEq, Repr

/-- The `for` loop of lines 364-372: sets the per-file progress (spreading
the previous progress, so `total` is retained), then uploads; `n` is the
length of the full file list, `i` the index of the first remaining file.
Returns the state, the progress values set so far, and the error of the
first failing upload, if any. -/
def ingestLoop (env : GeminiEnv) (n : Nat) :
    List FileRec → Nat → AppState → List UploadProgress →
    AppState × List UploadProgress × Option String
  | [], _, s, ups => (s, ups, none)
  | f :: rest, i, s, ups =>
    let prev := s.uploadProgress.getD { current := 0, total := 0, message := "", fileName := none }
    let p : UploadProgress :=
      { prev with current := i + 1,
                  message := "Reading document...",
                  fileName := some ("(" ++ toString (i + 1) ++ "/" ++ toString n ++ ") " ++ f.name) }
    let s1 := { s with uploadProgress := some p }
    match env.ingestResult i with
    | Except.error e => (s1, ups ++ [p], some e)
    | Except.ok _ => ingestLoop env n rest (i + 1) s1 (ups ++ [p])

/-- `handleUploadAndStartChat` (App.tsx lines 338-405). -/
def handleUploadAndStartChat (env : GeminiEnv) (s0 : AppState) : UploadOutcome :=
  if s0.isApiKeySelected = false then
    { state := { s0 with apiKeyError := some "Please select your Gemini API Key first." },
      updates := [], createCalls := [], threw := true }
  else if s0.files.length = 0 then
    { state := s0, updates := [], createCalls := [], threw := false }
  else
    let s1 := { s0 with apiKeyError := none }
    match env.initResult with
    | Except.error e =>
      { state := handleError "Initialization failed. Please select a valid API Key." e s1,
        updates := [], createCalls := [], threw := true }
    | Except.ok _ =>
      let s2 := { s1 with status := AppStatus.Uploading }
      let totalSteps := s2.files.length + 1
      let p0 : UploadProgress :=
        { current := 0, total := totalSteps, message := "Creating index...", fileName := none }
      let s3 := { s2 with uploadProgress := some p0 }
      let storeName := "chat-session-" ++ toString env.now
      match env.createResult storeName with
      | Except.error e =>
        { state := clearProgress (classifyIndexError e s3),
          updates := [p0], createCalls := [storeName], threw := true }
      | Except.ok ragStoreName =>
        let p1 : UploadProgress :=
          { current := 1, total := totalSteps, message := "Processing...", fileName := none }
        let s4 := { s3 with uploadProgress := some p1 }
        let r := ingestLoop env s4.files.length s4.files 0 s4 [p0, p1]
        match r.2.2 with
        | some e =>
          { state := clearProgress (classifyIndexError e r.1),
            updates := r.2.1, createCalls := [storeName], threw := true }
        | none =>
          let pf : UploadProgress :=
            { current := totalSteps, total := totalSteps, message := "Ready!", fileName := some "" }
          let s5 := { r.1 with uploadProgress := some pf }
          let s6 := { s5 with documentName := docNameOf s5.files,
                              activeRagStoreName := some ragStoreName,
                              chatHistory := [],
                              status := AppStatus.Chatting,
                              files := [] }
          { state := clearProgress s6,
            updates := r.2.1 ++ [pf], createCalls := [storeName], threw := false }

/-- `WelcomeScreen.handleConfirmUpload` (WelcomeScreen.tsx lines 49-55):
awaits `onUpload` and catches (logging only) any rejection, so the handler
itself never throws. -/
def handleConfirmUpload (env : GeminiEnv) (s : AppState) : UploadOutcome :=
  let r := handleUploadAndStartChat env s
  { r with threw := false }

/-! ### Chat turn dispatch (App.tsx `handleSendMessage`, lines 420-445) -/

/-- Outcome of `geminiService.fileSearch`. -/
structure QueryResult where
  text : String
  groundingChunks : Option (List GroundingChunk)

/-- Environment for one chat turn: the outcome of
`fileSearch(storeName, message)`. -/
structure QueryEnv where
  fileSearch : String → String → Except String QueryResult

/-- The fixed apology text of the fallback model turn (line 438). -/
def apologyText : String := "Sorry, I encountered an error. Please try again."

/-- `handleSendMessage` (lines 420-445).  `if (!activeRagStoreName) return`
is falsy for both `null` and the empty string. -/
def handleSendMessage (env : QueryEnv) (message : String) (s : AppState) : AppState :=
  match s.activeRagStoreName with
  | none => s
  | some store =>
    if store = "" then s
    else
      let userTurn : ChatMessage :=
        { role := Role.user, parts := [{ text := message }], groundingChunks := none }
      let s1 := { s with chatHistory := s.chatHistory ++ [userTurn], isQueryLoading := true }
      match env.fileSearch store message with
      | Except.ok result =>
        let modelTurn : ChatMessage :=
          { role := Role.model, parts := [{ text := result.text }],
            groundingChunks := result.groundingChunks }
        let s2 := { s1 with chatHistory := s1.chatHistory ++ [modelTurn] }
        { s2 with isQueryLoading := false }
      | Except.error e =>
        let fallbackTurn : ChatMessage :=
          { role := Role.model, parts := [{ text := apologyText }], groundingChunks := none }
        let s2 := { s1 with chatHistory := s1.chatHistory ++ [fallbackTurn] }
        let s3 := handleError "Failed to get response" e s2
        { s3 with isQueryLoading := false }

/-! ### Session end and page teardown (App.tsx lines 293-306 and 407-418) -/

/-- `handleEndChat` (lines 407-418): best-effort deletion request for a
truthy active store handle, then a full reset to `Welcome`.  The second
component lists the store names whose deletion was requested. -/
def handleEndChat (s : AppState) : AppState × List String :=
  let reqs :=
    match s.activeRagStoreName with
    | some h => if h = "" then [] else [h]
    | none => []
  ({ s with activeRagStoreName := none, chatHistory := [], documentName := "",
            files := [], status := AppStatus.Welcome },
   reqs)

/-- `handleUnload` (lines 293-306): fire-and-forget deletion request for
the handle held in `ragStoreNameRef` (kept equal to
`activeRagStoreName`); the page state itself is being discarded. -/
def handleUnload (s : AppState) : List String :=
  match s.activeRagStoreName with
  | some h => if h = "" then [] else [h]
  | none => []

/-- The lifecycle events that can request a store deletion. -/
inductive SessionEvent
  | endChat
  | unload
deriving DecidableEq, Repr

/-- Run a sequence of lifecycle events, collecting every deletion request
in order. -/
def runEvents : List SessionEvent → AppState → AppState × List String
  | [], s => (s, [])
  | SessionEvent.endChat :: rest, s =>
    let p := handleEndChat s
    let q := runEvents rest p.1
    (q.1, p.2 ++ q.2)
  | SessionEvent.unload :: rest, s =>
    let q := runEvents rest s
    (q.1, handleUnload s ++ q.2)

/-- A trace is valid when `unload` (page teardown) occurs at most once and
only as the final event. -/
def validTrace (tr : List SessionEvent) : Bool :=
  tr.dropLast.all (fun e => match e with | SessionEvent.endChat => true | SessionEvent.unload => false)

/-! ### Spec-side helper definitions

These describe expected outputs independently of the renderer's internal
buffering, for use in theorem statements. -/

/-- A line is free of inline markup characters: no `*`, no `_`, no
backquote. -/
def inlinePlain (l : String) : Bool :=
  l.data.all (fun c => decide (c ≠ '*' ∧ c ≠ '_' ∧ c ≠ btick))

/-- A line carries no markup at all: no inline marker characters, no
ordered-list lead, no bullet lead, and it is not blank. -/
def plainLine (l : String) : Bool :=
  inlinePlain l && (matchOl l).isNone && (matchUl l).isNone && (trimStr l != "")

/-- The input lines joined by the line-break marker, as the spec describes
the single resulting paragraph. -/
def joinBr : List String → String
  | [] => ""
  | [l] => l
  | l :: ls => l ++ "<br/>" ++ joinBr ls

/-- The paragraph buffer accumulated over a run of paragraph lines
(mirrors `paraBuffer += (paraBuffer ? '<br/>' : '') + line`). -/
def accumPara (pb : String) : List String → String
  | [] => pb
  | l :: ls => accumPara (pb ++ (if pb = "" then "" else "<br/>") ++ l) ls

/-! ### Concrete fixtures used by witnesses and counterexamples -/

/-- A welcome-phase state with a selected key and two selected files. -/
def wState : AppState :=
  { status := AppStatus.Welcome, isApiKeySelected := true, apiKeyError := some "old message",
    error := none, uploadProgress := none, activeRagStoreName := none,
    chatHistory := [], isQueryLoading := false, documentName := "",
    files := [{ name := "a.pdf" }, { name := "b.txt" }] }

/-- A welcome-phase state with no key selected. -/
def noKeyState : AppState := { wState with isApiKeySelected := false, apiKeyError := none }

/-- A chatting-phase state with an active store handle. -/
def chatState : AppState :=
  { status := AppStatus.Chatting, isApiKeySelected := true, apiKeyError := none,
    error := none, uploadProgress := none, activeRagStoreName := some "rs-7",
    chatHistory := [], isQueryLoading := false, documentName := "a.pdf", files := [] }

/-- A collaborator environment in which every call succeeds. -/
def envAllOk : GeminiEnv :=
  { now := 7, initResult := Except.ok (),
    createResult := fun _ => Except.ok "rs-7",
    ingestResult := fun _ => Except.ok () }

/-- A collaborator environment whose store creation reports an invalid
key. -/
def envBadKey : GeminiEnv :=
  { envAllOk with createResult := fun _ => Except.error "API key not valid." }

/-- A query environment whose retrieval always fails with a generic
error. -/
def qenvFail : QueryEnv := { fileSearch := fun _ _ => Except.error "boom" }

/-! ## Claim C9 -/

/-- C9: `checkApiKey` with the host capability absent leaves the whole
session state (in particular the credential flag) unchanged, and the flag
is moved from `true` to `false` only when the capability is present and
either resolves `false` or rejects. -/
theorem checkApiKey_frame :
    (∀ s : AppState, checkApiKey none s = s) ∧
    (∀ (s : AppState) (cap : Option (Except Unit Bool)),
      s.isApiKeySelected = true →
      (checkApiKey cap s).isApiKeySelected = false →
      cap = some (Except.ok false) ∨ cap = some (Except.error ())) := by
  constructor
  · intro s; rfl
  · intro s cap htrue hfalse
    match cap with
    | none => simp [checkApiKey, htrue] at hfalse
    | some (Except.ok true) => simp [checkApiKey] at hfalse
    | some (Except.ok false) => exact Or.inl rfl
    | some (Except.error ()) => exact Or.inr rfl

/-- Witness for C9: the flag flips to `false` at a concrete state exactly
because the capability rejected. -/
theorem checkApiKey_frame_witness :
    checkApiKey none wState = wState ∧
    (some (Except.error ()) = some (Except.ok false) ∨
      (some (Except.error ()) : Option (Except Unit Bool)) = some (Except.error ())) :=
  ⟨checkApiKey_frame.1 wState,
   checkApiKey_frame.2 wState (some (Except.error ())) (by decide) (by decide)⟩

/-! ## Claim C10 -/

/-- C10: with a credential selected and an empty file selection,
`handleUploadAndStartChat` returns before any effect: the state is
untouched (in particular `apiKeyError` is not cleared, because the empty
check precedes `setApiKeyError(null)`), no store creation is requested, no
progress is published, and nothing is thrown. -/
theorem emptySelection_early_return (env : GeminiEnv) (s : AppState)
    (hkey : s.isApiKeySelected = true) (hfiles : s.files = []) :
    handleUploadAndStartChat env s =
      { state := s, updates := [], createCalls := [], threw := false } := by
  simp [handleUploadAndStartChat, hkey, hfiles]

/-- Witness for C10 at a concrete state carrying a stale `apiKeyError`. -/
theorem emptySelection_early_return_witness :
    ({ wState with files := [] } : AppState).isApiKeySelected = true ∧
    handleUploadAndStartChat envAllOk { wState with files := [] } =
      { state := { wState with files := [] }, updates := [], createCalls := [], threw := false } :=
  ⟨by decide, emptySelection_early_return envAllOk { wState with files := [] } (by decide) rfl⟩

/-! ## Claim C2

The claim is false: `handleUploadAndStartChat` (the `startIndexing`
operation) throws past the controller boundary on its missing-credential
guard and rethrows initialization, creation and ingestion failures, and
the presentation layer (`WelcomeScreen.handleConfirmUpload`) does catch. -/

/-- Counterexample to C2 as stated: at a concrete state with no credential
selected, `startIndexing` throws past the controller boundary. -/
theorem startIndexing_throws_counterexample :
    (handleUploadAndStartChat envAllOk noKeyState).threw = true := by decide

/-- C2 (amended): `sendMessage`, `endSession` and `teardown` return
normally, but `startIndexing` does throw past the controller boundary
(for example whenever no credential is selected); its only presentation
caller, `WelcomeScreen.handleConfirmUpload`, catches the rethrown error
while observing the same state, so nothing propagates past that handler. -/
theorem confirmUpload_catches (env : GeminiEnv) (s : AppState) :
    (handleConfirmUpload env s).threw = false ∧
    (handleConfirmUpload env s).state = (handleUploadAndStartChat env s).state ∧
    (s.isApiKeySelected = false → (handleUploadAndStartChat env s).threw = true) := by
  refine ⟨rfl, rfl, fun h => ?_⟩
  simp [handleUploadAndStartChat, h]

/-- Witness for the amended C2 at a concrete key-less state. -/
theorem confirmUpload_catches_witness :
    (handleConfirmUpload envAllOk noKeyState).threw = false ∧
    (handleUploadAndStartChat envAllOk noKeyState).threw = true :=
  ⟨(confirmUpload_catches envAllOk noKeyState).1,
   (confirmUpload_catches envAllOk noKeyState).2.2 (by decide)⟩

/-! ## Claim C1

The claim is half true: on a failed query the transcript does grow by
exactly one model turn carrying the fixed apology text, but the phase does
NOT remain `Chatting` — `handleSendMessage`'s catch block calls
`handleError`, which moves the status to `Error`. -/

/-- Counterexample to C1 as stated: at a concrete chatting state whose
query collaborator throws a generic error, the resulting phase is `Error`,
not `Chatting`. -/
theorem sendMessage_error_phase_counterexample :
    (handleSendMessage qenvFail "hi" chatState).status = AppStatus.Error ∧
    (handleSendMessage qenvFail "hi" chatState).status ≠ AppStatus.Chatting := by decide

/-- C1 (amended): for every chat turn sent while a store handle is active,
if the retrieval query fails, the transcript grows by the user turn plus
exactly one model turn carrying the fixed apology text, the error is
recorded, the in-flight flag is cleared — and the phase transitions to
`Error` (it does not remain `Chatting`). -/
theorem sendMessage_error_appends_apology (env : QueryEnv) (s : AppState)
    (msg h e : String)
    (hstore : s.activeRagStoreName = some h) (hne : h ≠ "")
    (hfail : env.fileSearch h msg = Except.error e) :
    (handleSendMessage env msg s).chatHistory =
      s.chatHistory ++
        [{ role := Role.user, parts := [{ text := msg }], groundingChunks := none },
         { role := Role.model, parts := [{ text := apologyText }], groundingChunks := none }] ∧
    (handleSendMessage env msg s).status = AppStatus.Error ∧
    (handleSendMessage env msg s).error =
      some (if e = "" then "Failed to get response" else "Failed to get response: " ++ e) ∧
    (handleSendMessage env msg s).isQueryLoading = false := by
  simp [handleSendMessage, hstore, hne, hfail, handleError]

/-- Witness for the amended C1 at a concrete chatting state. -/
theorem sendMessage_error_appends_apology_witness :
    (handleSendMessage qenvFail "hi" chatState).chatHistory =
      chatState.chatHistory ++
        [{ role := Role.user, parts := [{ text := "hi" }], groundingChunks := none },
         { role := Role.model, parts := [{ text := apologyText }], groundingChunks := none }] ∧
    (handleSendMessage qenvFail "hi" chatState).status = AppStatus.Error := by
  have h := sendMessage_error_appends_apology qenvFail chatState "hi" "rs-7" "boom"
    rfl (by decide) rfl
  exact ⟨h.1, h.2.1⟩

/-! ## Claim C4 -/

/-- Once the store handle is gone from the state, no further lifecycle
event requests any deletion. -/
theorem runEvents_no_store : ∀ (tr : List SessionEvent) (s : AppState),
    s.activeRagStoreName = none → (runEvents tr s).2 = [] := by
  intro tr
  induction tr with
  | nil => intro s _; rfl
  | cons e rest ih =>
    intro s hnone
    cases e with
    | endChat =>
      simp only [runEvents]
      rw [show (handleEndChat s).2 = [] by simp [handleEndChat, hnone]]
      simpa using ih (handleEndChat s).1 (by simp [handleEndChat])
    | unload =>
      simp only [runEvents]
      rw [show handleUnload s = [] by simp [handleUnload, hnone]]
      simpa using ih s hnone

/-- C4: for a (nonempty-named) store handle that is active in the state,
any valid sequence of `endSession` / page-teardown events requests its
deletion exactly once when at least one such event occurs, and never
twice; the empty trace (the handle was not abandoned) requests none. -/
theorem storeHandle_deleted_once (tr : List SessionEvent) (s : AppState) (h : String)
    (hstore : s.activeRagStoreName = some h) (hne : h ≠ "")
    (hvalid : validTrace tr = true) :
    (runEvents tr s).2.count h = if tr.isEmpty then 0 else 1 := by
  cases tr with
  | nil => rfl
  | cons e rest =>
    cases e with
    | endChat =>
      simp only [runEvents, List.isEmpty_cons, if_neg Bool.false_ne_true]
      rw [show (handleEndChat s).2 = [h] by simp [handleEndChat, hstore, hne]]
      rw [runEvents_no_store rest (handleEndChat s).1 (by simp [handleEndChat])]
      simp
    | unload =>
      have hrest : rest = [] := by
        cases rest with
        | nil => rfl
        | cons r rs => simp [validTrace, List.dropLast] at hvalid
      subst hrest
      simp only [runEvents, List.isEmpty_cons, if_neg Bool.false_ne_true]
      rw [show handleUnload s = [h] by simp [handleUnload, hstore, hne]]
      simp

/-- Witness for C4: the concrete chatting state, abandoned by a single
new-chat event, requests exactly one deletion of its handle. -/
theorem storeHandle_deleted_once_witness :
    chatState.activeRagStoreName = some "rs-7" ∧
    (runEvents [SessionEvent.endChat] chatState).2.count "rs-7" = 1 := by
  have h := storeHandle_deleted_once [SessionEvent.endChat] chatState "rs-7"
    rfl (by decide) (by decide)
  exact ⟨rfl, by simpa using h⟩

/-! ## Ingestion-loop lemmas (shared by C3, C5, C6) -/

/-- The ingestion loop touches only the `uploadProgress` field of the
state. -/
theorem ingestLoop_frame (env : GeminiEnv) (n : Nat) :
    ∀ (fs : List FileRec) (i : Nat) (s : AppState) (ups : List UploadProgress),
    (ingestLoop env n fs i s ups).1.status = s.status ∧
    (ingestLoop env n fs i s ups).1.isApiKeySelected = s.isApiKeySelected ∧
    (ingestLoop env n fs i s ups).1.apiKeyError = s.apiKeyError ∧
    (ingestLoop env n fs i s ups).1.error = s.error ∧
    (ingestLoop env n fs i s ups).1.activeRagStoreName = s.activeRagStoreName ∧
    (ingestLoop env n fs i s ups).1.chatHistory = s.chatHistory ∧
    (ingestLoop env n fs i s ups).1.isQueryLoading = s.isQueryLoading ∧
    (ingestLoop env n fs i s ups).1.documentName = s.documentName ∧
    (ingestLoop env n fs i s ups).1.files = s.files := by
  intro fs
  induction fs with
  | nil => intro i s ups; simp [ingestLoop]
  | cons f rest ih =>
    intro i s ups
    simp only [ingestLoop]
    cases henv : env.ingestResult i with
    | error e => simp
    | ok u => simpa using ih (i + 1) _ _

/-- If every remaining upload succeeds, the loop reports no error. -/
theorem ingestLoop_ok (env : GeminiEnv) (n : Nat) :
    ∀ (fs : List FileRec) (i : Nat) (s : AppState) (ups : List UploadProgress),
    (∀ j, j < fs.length → env.ingestResult (i + j) = Except.ok ()) →
    (ingestLoop env n fs i s ups).2.2 = none := by
  intro fs
  induction fs with
  | nil => intro i s ups _; rfl
  | cons f rest ih =>
    intro i s ups hok
    have h0 : env.ingestResult i = Except.ok () := by simpa using hok 0 (by simp)
    simp only [ingestLoop, h0]
    exact ih (i + 1) _ _ (fun j hj => by
      have := hok (j + 1) (by simpa using Nat.succ_lt_succ hj)
      simpa [Nat.add_assoc, Nat.add_comm 1 j] using this)

/-- If the `k`-th remaining upload is the first to fail, the loop reports
its error. -/
theorem ingestLoop_err (env : GeminiEnv) (n : Nat) :
    ∀ (fs : List FileRec) (k i : Nat) (s : AppState) (ups : List UploadProgress) (e : String),
    k < fs.length →
    (∀ j, j < k → env.ingestResult (i + j) = Except.ok ()) →
    env.ingestResult (i + k) = Except.error e →
    (ingestLoop env n fs i s ups).2.2 = some e := by
  intro fs
  induction fs with
  | nil => intro k i s ups e hk; exact absurd hk (by simp)
  | cons f rest ih =>
    intro k i s ups e hk hpre hfail
    cases k with
    | zero =>
      have h0 : env.ingestResult i = Except.error e := by simpa using hfail
      simp [ingestLoop, h0]
    | succ k' =>
      have h0 : env.ingestResult i = Except.ok () := by simpa using hpre 0 (by simp)
      simp only [ingestLoop, h0]
      exact ih k' (i + 1) _ _ e (by simpa using Nat.lt_of_succ_lt_succ hk)
        (fun j hj => by
          have := hpre (j + 1) (by simpa using Nat.succ_lt_succ hj)
          simpa [Nat.add_assoc, Nat.add_comm 1 j] using this)
        (by
          have := hfail
          rw [show i + 1 + k' = i + (k' + 1) by omega]
          exact this)

/-! ## Claim C3 -/

/-- C3: with a credential selected and a non-empty selection, a store
creation or ingestion failure whose message is classified as a credential
error (invalid key / missing entity) un-sets the credential flag, sets the
credential-specific message, returns the phase to `Welcome`
(ReadyToUpload), leaves the selected files unchanged, and clears the
progress indicator. -/
theorem credentialFailure_returns_to_welcome (env : GeminiEnv) (s : AppState) (e : String)
    (hkey : s.isApiKeySelected = true) (hfiles : s.files ≠ [])
    (hinit : env.initResult = Except.ok ())
    (hcred : isCredMessage e = true)
    (hfail : env.createResult ("chat-session-" ++ toString env.now) = Except.error e ∨
      ∃ name k, env.createResult ("chat-session-" ++ toString env.now) = Except.ok name ∧
        k < s.files.length ∧
        (∀ j, j < k → env.ingestResult j = Except.ok ()) ∧
        env.ingestResult k = Except.error e) :
    (handleUploadAndStartChat env s).state.isApiKeySelected = false ∧
    (handleUploadAndStartChat env s).state.apiKeyError =
      some "The selected API key is invalid. Please select a different one and try again." ∧
    (handleUploadAndStartChat env s).state.status = AppStatus.Welcome ∧
    (handleUploadAndStartChat env s).state.files = s.files ∧
    (handleUploadAndStartChat env s).state.uploadProgress = none := by
  have hlen : ¬ s.files.length = 0 := by simpa [List.length_eq_zero] using hfiles
  rcases hfail with hname | ⟨name, k, hname, hk, hpre, hfailk⟩
  · simp [handleUploadAndStartChat, hkey, hlen, hinit, hname, classifyIndexError, hcred,
      clearProgress]
  · simp only [handleUploadAndStartChat, hkey, hlen, hinit, hname]
    rw [ingestLoop_err env s.files.length s.files k 0 _ _ e hk
      (fun j hj => by simpa using hpre j hj) (by simpa using hfailk)]
    have hframe := (ingestLoop_frame env s.files.length s.files 0
      { s with status := AppStatus.Uploading, isApiKeySelected := true, apiKeyError := none,
               uploadProgress := some { current := 1, total := s.files.length + 1,
                                        message := "Processing...", fileName := none } }
      [{ current := 0, total := s.files.length + 1, message := "Creating index...", fileName := none },
       { current := 1, total := s.files.length + 1, message := "Processing...", fileName := none }])
    simp [hkey] at hframe
    simp [classifyIndexError, hcred, clearProgress, hframe.2.2.2.2.2.2.2.2]

/-- Witness for C3: the concrete two-file welcome state whose store
creation reports "API key not valid." -/
theorem credentialFailure_returns_to_welcome_witness :
    isCredMessage "API key not valid." = true ∧
    (handleUploadAndStartChat envBadKey wState).state.isApiKeySelected = false ∧
    (handleUploadAndStartChat envBadKey wState).state.status = AppStatus.Welcome ∧
    (handleUploadAndStartChat envBadKey wState).state.files = wState.files := by
  have h := credentialFailure_returns_to_welcome envBadKey wState "API key not valid."
    rfl (by decide) rfl (by decide) (Or.inl rfl)
  exact ⟨by decide, h.1, h.2.2.1, h.2.2.2.1⟩

/-! ## Claim C5 -/

/-- C5: with a credential selected and `n` files selected (`n ≠ 0`), a
fully successful `startIndexing` publishes, as its final progress update
before the transition, `completed = total = n + 1`, ends in phase
`Chatting` with an empty transcript and an empty selected-files list, and
clears the progress indicator — which is also cleared on every other exit
of the indexing attempt (credential failure and generic failure included),
as the `finally` block guarantees. -/
theorem startIndexing_success_progress (env : GeminiEnv) (s : AppState)
    (hkey : s.isApiKeySelected = true) (hfiles : s.files ≠ [])
    (hinit : env.initResult = Except.ok ()) :
    ((∃ name, env.createResult ("chat-session-" ++ toString env.now) = Except.ok name) →
     (∀ j, j < s.files.length → env.ingestResult j = Except.ok ()) →
     (handleUploadAndStartChat env s).updates.getLast? =
        some { current := s.files.length + 1, total := s.files.length + 1,
               message := "Ready!", fileName := some "" } ∧
     (handleUploadAndStartChat env s).state.status = AppStatus.Chatting ∧
     (handleUploadAndStartChat env s).state.chatHistory = [] ∧
     (handleUploadAndStartChat env s).state.files = [] ∧
     (handleUploadAndStartChat env s).state.uploadProgress = none) ∧
    (handleUploadAndStartChat env s).state.uploadProgress = none := by
  have hlen : ¬ s.files.length = 0 := by simpa [List.length_eq_zero] using hfiles
  constructor
  · rintro ⟨name, hname⟩ hing
    have hfun : ∀ j, j < s.files.length → env.ingestResult (0 + j) = Except.ok () :=
      fun j hj => by simpa using hing j hj
    simp only [handleUploadAndStartChat, hkey, hlen, hinit, hname]
    rw [ingestLoop_ok env s.files.length s.files 0 _ _ hfun]
    simp [clearProgress]
  · simp only [handleUploadAndStartChat, hkey, hlen, hinit]
    cases hc : env.createResult ("chat-session-" ++ toString env.now) with
    | error e => simp [hc, clearProgress]
    | ok name =>
      simp only [hc]
      split
      · simp_all
      · split
        · simp_all
        · split <;> simp [clearProgress]

/-- Witness for C5 at the concrete two-file state with an all-success
environment: the final update is `3/3` and the phase is `Chatting`. -/
theorem startIndexing_success_progress_witness :
    (handleUploadAndStartChat envAllOk wState).updates.getLast? =
      some { current := 3, total := 3, message := "Ready!", fileName := some "" } ∧
    (handleUploadAndStartChat envAllOk wState).state.status = AppStatus.Chatting ∧
    (handleUploadAndStartChat envAllOk wState).state.uploadProgress = none := by
  have h := (startIndexing_success_progress envAllOk wState rfl (by decide) rfl).1
    ⟨"rs-7", rfl⟩ (fun j _ => rfl)
  exact ⟨h.1, h.2.1, h.2.2.2.2⟩

/-! ## Claim C6 -/

/-- The fall-through arm of the display-name computation applies to every
list of three or more files. -/
theorem docNameOf_ge3 : ∀ (fs : List FileRec), 3 ≤ fs.length →
    docNameOf fs = toString fs.length ++ " documents"
  | _ :: _ :: _ :: _, _ => rfl
  | [], h => absurd h (by simp)
  | [_], h => absurd h (by simp)
  | [_, _], h => absurd h (by simp)

/-- C6: on a successful `startIndexing` over `n` files, the computed
display name is the single file's name when `n = 1`, the two names joined
by " & " when `n = 2`, and "`n` documents" when `n ≥ 3`. -/
theorem displayName_cases (env : GeminiEnv) (s : AppState) (name : String)
    (hkey : s.isApiKeySelected = true) (hfiles : s.files ≠ [])
    (hinit : env.initResult = Except.ok ())
    (hname : env.createResult ("chat-session-" ++ toString env.now) = Except.ok name)
    (hing : ∀ j, j < s.files.length → env.ingestResult j = Except.ok ()) :
    (∀ f, s.files = [f] →
      (handleUploadAndStartChat env s).state.documentName = f.name) ∧
    (∀ f g, s.files = [f, g] →
      (handleUploadAndStartChat env s).state.documentName = f.name ++ " & " ++ g.name) ∧
    (3 ≤ s.files.length →
      (handleUploadAndStartChat env s).state.documentName =
        toString s.files.length ++ " documents") := by
  have hlen : ¬ s.files.length = 0 := by simpa [List.length_eq_zero] using hfiles
  have hfun : ∀ j, j < s.files.length → env.ingestResult (0 + j) = Except.ok () :=
    fun j hj => by simpa using hing j hj
  have hdoc : (handleUploadAndStartChat env s).state.documentName = docNameOf s.files := by
    simp only [handleUploadAndStartChat, hkey, hlen, hinit, hname]
    rw [ingestLoop_ok env s.files.length s.files 0 _ _ hfun]
    simp only [clearProgress]
    have hframe := (ingestLoop_frame env s.files.length s.files 0
      { s with status := AppStatus.Uploading, isApiKeySelected := true, apiKeyError := none,
               uploadProgress := some { current := 1, total := s.files.length + 1,
                                        message := "Processing...", fileName := none } }
      [{ current := 0, total := s.files.length + 1, message := "Creating index...", fileName := none },
       { current := 1, total := s.files.length + 1, message := "Processing...", fileName := none }]).2.2.2.2.2.2.2.2
    simp [hkey] at hframe ⊢
    rw [hframe]
  refine ⟨fun f hf => ?_, fun f g hfg => ?_, fun h3 => ?_⟩
  · rw [hdoc, hf]; rfl
  · rw [hdoc, hfg]; rfl
  · rw [hdoc]
    exact docNameOf_ge3 s.files h3

/-- Witness for C6 at the concrete two-file state. -/
theorem displayName_cases_witness :
    (handleUploadAndStartChat envAllOk wState).state.documentName = "a.pdf & b.txt" := by
  have h := (displayName_cases envAllOk wState "rs-7" rfl (by decide) rfl rfl
    (fun j _ => rfl)).2.1 { name := "a.pdf" } { name := "b.txt" } rfl
  simpa using h

/-! ## Renderer lemmas (shared by C7 and C8) -/

/-- Rebuilding a string from its own characters is the identity. -/
theorem strEta (s : String) : String.mk s.data = s := by cases s; rfl

/-- When the marker does not occur in `xs`, the first doubled marker after
`xs` is the appended closer. -/
theorem splitAtDouble_not_mem {m : Char} :
    ∀ (xs : List Char), m ∉ xs → splitAtDouble m (xs ++ [m, m]) = some (xs, []) := by
  intro xs
  induction xs with
  | nil => intro _; simp [splitAtDouble]
  | cons x tail ih =>
    intro hmem
    have hx : ¬(x = m) := fun h => hmem (h ▸ List.mem_cons_self x tail)
    have htail : m ∉ tail := fun h => hmem (List.mem_cons_of_mem x h)
    cases tail with
    | nil => simp [splitAtDouble, hx]
    | cons y ys =>
      have := ih htail
      simp only [List.cons_append] at this ⊢
      simp [splitAtDouble, hx, this]

/-- A line without `*` or `_` passes through the bold scanner unchanged. -/
theorem boldSubAuxF_id :
    ∀ (fuel : Nat) (cs : List Char), (∀ c ∈ cs, ¬(c = '*' ∨ c = '_')) →
      boldSubAuxF fuel cs = cs := by
  intro fuel
  induction fuel with
  | zero => intro cs _; cases cs <;> rfl
  | succ f ih =>
    intro cs h
    cases cs with
    | nil => rfl
    | cons c rest =>
      have hc : ¬(c = '*' ∨ c = '_') := h c (List.mem_cons_self c rest)
      simp only [boldSubAuxF, if_neg hc]
      rw [ih rest (fun a ha => h a (List.mem_cons_of_mem c ha))]

/-- A line without `*` or `_` passes through the emphasis scanner
unchanged. -/
theorem emSubAuxF_id :
    ∀ (fuel : Nat) (cs : List Char), (∀ c ∈ cs, ¬(c = '*' ∨ c = '_')) →
      emSubAuxF fuel cs = cs := by
  intro fuel
  induction fuel with
  | zero => intro cs _; cases cs <;> rfl
  | succ f ih =>
    intro cs h
    cases cs with
    | nil => rfl
    | cons c rest =>
      have hc : ¬(c = '*' ∨ c = '_') := h c (List.mem_cons_self c rest)
      simp only [emSubAuxF, if_neg hc]
      rw [ih rest (fun a ha => h a (List.mem_cons_of_mem c ha))]

/-- A line without backquotes passes through the code scanner unchanged. -/
theorem codeSubAuxF_id :
    ∀ (fuel : Nat) (cs : List Char), (∀ c ∈ cs, ¬(c = btick)) →
      codeSubAuxF fuel cs = cs := by
  intro fuel
  induction fuel with
  | zero => intro cs _; cases cs <;> rfl
  | succ f ih =>
    intro cs h
    cases cs with
    | nil => rfl
    | cons c rest =>
      have hc : ¬(c = btick) := h c (List.mem_cons_self c rest)
      simp only [codeSubAuxF, if_neg hc]
      rw [ih rest (fun a ha => h a (List.mem_cons_of_mem c ha))]

/-- A line free of all three marker characters is left verbatim by the
full inline substitution. -/
theorem inlineSub_id (l : String) (h : inlinePlain l = true) : inlineSub l = l := by
  have h' : ∀ c ∈ l.data, c ≠ '*' ∧ c ≠ '_' ∧ c ≠ btick := by
    simpa [inlinePlain, List.all_eq_true] using h
  have hbold : boldSub l = l := by
    rw [boldSub, boldSubAuxF_id _ _ (fun c hc => by
      rcases h' c hc with ⟨h1, h2, _⟩
      rintro (rfl | rfl) <;> simp_all)]
  have hem : emSub l = l := by
    rw [emSub, emSubAuxF_id _ _ (fun c hc => by
      rcases h' c hc with ⟨h1, h2, _⟩
      rintro (rfl | rfl) <;> simp_all)]
  have hcode : codeSub l = l := by
    rw [codeSub, codeSubAuxF_id _ _ (fun c hc => (h' c hc).2.2)]
  rw [inlineSub, hbold, hem, hcode]

/-- One step of the bold scanner on a well-formed doubled-marker span
whose content contains no `*`: the whole span becomes one strong span. -/
theorem boldSubAuxF_span (f : Nat) (xs : List Char) (hxs : '*' ∉ xs) :
    boldSubAuxF (f + 1) ('*' :: '*' :: (xs ++ ['*', '*'])) =
      "<strong>".data ++ xs ++ "</strong>".data := by
  simp [boldSubAuxF, splitAtDouble_not_mem xs hxs]

/-! ## Claim C8 -/

/-- C8: inline substitution runs bold before emphasis before inline code,
so a doubled-marker span `**x**` becomes one strong span — the doubled
marker is consumed by the bold pass and is never split into two
single-marker emphasis matches (the result of `inlineSub "**x**"` contains
no `<em>`). -/
theorem boldBeforeEmphasis :
    (∀ x : String, inlinePlain x = true →
      inlineSub ("**" ++ x ++ "**") = "<strong>" ++ x ++ "</strong>") ∧
    inlineSub "**x**" = "<strong>x</strong>" ∧
    containsSub (inlineSub "**x**") "<em>" = false := by
  refine ⟨fun x hx => ?_, by decide, by decide⟩
  have h' : ∀ c ∈ x.data, c ≠ '*' ∧ c ≠ '_' ∧ c ≠ btick := by
    simpa [inlinePlain, List.all_eq_true] using hx
  have hstar : '*' ∉ x.data := fun h => ((h' _ h).1 rfl)
  have h2 : ("**" : String).data = ['*', '*'] := by decide
  have hdata : ("**" ++ x ++ "**").data = '*' :: '*' :: (x.data ++ ['*', '*']) := by
    simp [String.data_append, h2]
  have hbold : boldSub ("**" ++ x ++ "**") =
      String.mk ("<strong>".data ++ x.data ++ "</strong>".data) := by
    rw [boldSub, hdata]
    exact congrArg String.mk (boldSubAuxF_span ((x.data ++ ['*', '*']).length + 1) x.data hstar)
  have hchars : ∀ c ∈ ("<strong>".data ++ x.data ++ "</strong>".data), ¬(c = '*' ∨ c = '_') := by
    have hlit1 : ∀ c ∈ ("<strong>" : String).data, ¬(c = '*' ∨ c = '_') := by decide
    have hlit2 : ∀ c ∈ ("</strong>" : String).data, ¬(c = '*' ∨ c = '_') := by decide
    intro c hc
    rcases List.mem_append.mp hc with hc12 | hc3
    · rcases List.mem_append.mp hc12 with hc1 | hc2
      · exact hlit1 c hc1
      · rcases h' c hc2 with ⟨ha, hb, _⟩
        rintro (rfl | rfl) <;> simp_all
    · exact hlit2 c hc3
  have hem : emSub (String.mk ("<strong>".data ++ x.data ++ "</strong>".data)) =
      String.mk ("<strong>".data ++ x.data ++ "</strong>".data) := by
    rw [emSub, emSubAuxF_id _ _ hchars]
  have hcodechars : ∀ c ∈ ("<strong>".data ++ x.data ++ "</strong>".data), ¬(c = btick) := by
    have hlit1 : ∀ c ∈ ("<strong>" : String).data, ¬(c = btick) := by decide
    have hlit2 : ∀ c ∈ ("</strong>" : String).data, ¬(c = btick) := by decide
    intro c hc
    rcases List.mem_append.mp hc with hc12 | hc3
    · rcases List.mem_append.mp hc12 with hc1 | hc2
      · exact hlit1 c hc1
      · exact (h' c hc2).2.2
    · exact hlit2 c hc3
  have hcode : codeSub (String.mk ("<strong>".data ++ x.data ++ "</strong>".data)) =
      String.mk ("<strong>".data ++ x.data ++ "</strong>".data) := by
    rw [codeSub, codeSubAuxF_id _ _ hcodechars]
  rw [inlineSub, hbold, hem, hcode]
  apply String.ext
  simp [String.data_append]

/-- Witness for C8: the universally quantified part applied to the
concrete content "abc". -/
theorem boldBeforeEmphasis_witness :
    inlinePlain "abc" = true ∧
    inlineSub ("**" ++ "abc" ++ "**") = "<strong>" ++ "abc" ++ "</strong>" :=
  ⟨by decide, boldBeforeEmphasis.1 "abc" (by decide)⟩

/-! ## Claim C7 lemmas -/

/-- Unpacking the `plainLine` predicate. -/
theorem plainLine_parts (l : String) (h : plainLine l = true) :
    inlinePlain l = true ∧ matchOl l = none ∧ matchUl l = none ∧ trimStr l ≠ "" := by
  simp [plainLine, Option.isNone_iff_eq_none] at h
  exact ⟨h.1.1.1, h.1.1.2, h.1.2, h.2⟩

/-- A string differs from the empty string exactly when its character list
is nonempty. -/
theorem str_ne_empty_iff (s : String) : s ≠ "" ↔ s.data ≠ [] := by
  constructor
  · intro h hd
    exact h (String.ext (by simpa using hd))
  · intro h hs
    subst hs
    exact h rfl

/-- A markup-free line is in particular nonempty. -/
theorem plainLine_ne_empty (l : String) (h : plainLine l = true) : l ≠ "" := by
  intro hl
  subst hl
  exact (plainLine_parts "" h).2.2.2 rfl

/-- Splitting on newlines always yields at least one piece. -/
theorem splitNl_ne_nil : ∀ (cs : List Char), splitNl cs ≠ [] := by
  intro cs
  cases cs with
  | nil => simp [splitNl]
  | cons c rest =>
    by_cases hc : c = '\n'
    · simp [splitNl, hc]
    · cases h : splitNl rest <;> simp [splitNl, hc, h]

/-- The line list of any text is nonempty. -/
theorem linesOf_ne_nil (t : String) : linesOf t ≠ [] := by
  intro h
  exact splitNl_ne_nil t.data (by simpa [linesOf] using h)

/-- On a markup-free line the loop body only extends the paragraph
buffer. -/
theorem stepLine_plain (st : RState) (l : String) (hl : plainLine l = true)
    (hlist : st.listType = none) :
    stepLine st l =
      { st with paraBuffer :=
          st.paraBuffer ++ (if st.paraBuffer = "" then "" else "<br/>") ++ l } := by
  obtain ⟨hinl, hol, hul, htrim⟩ := plainLine_parts l hl
  simp [stepLine, inlineSub_id l hinl, hol, hul, flushList, hlist, htrim]

/-- Folding the loop over markup-free lines accumulates exactly the
paragraph buffer. -/
theorem foldl_plain : ∀ (ls : List String) (st : RState), st.listType = none →
    (∀ l ∈ ls, plainLine l = true) →
    List.foldl stepLine st ls = { st with paraBuffer := accumPara st.paraBuffer ls } := by
  intro ls
  induction ls with
  | nil => intro st h _; simp [accumPara]
  | cons l tail ih =>
    intro st hlist hall
    rw [List.foldl_cons, stepLine_plain st l (hall l (List.mem_cons_self l tail)) hlist]
    rw [ih { st with paraBuffer :=
          st.paraBuffer ++ (if st.paraBuffer = "" then "" else "<br/>") ++ l }
        hlist (fun x hx => hall x (List.mem_cons_of_mem l hx))]
    rw [show accumPara st.paraBuffer (l :: tail) =
      accumPara (st.paraBuffer ++ (if st.paraBuffer = "" then "" else "<br/>") ++ l) tail from rfl]

/-- `joinBr` on at least two lines. -/
theorem joinBr_cons_cons (l m : String) (ms : List String) :
    joinBr (l :: m :: ms) = l ++ "<br/>" ++ joinBr (m :: ms) := rfl

/-- Accumulating into a nonempty buffer inserts a break before each
line. -/
theorem accumPara_of_ne : ∀ (ls : List String) (pb : String), pb ≠ "" →
    accumPara pb ls = if ls.isEmpty then pb else pb ++ "<br/>" ++ joinBr ls := by
  intro ls
  induction ls with
  | nil => intro pb _; simp [accumPara]
  | cons l tail ih =>
    intro pb hpb
    rw [show accumPara pb (l :: tail) =
      accumPara (pb ++ (if pb = "" then "" else "<br/>") ++ l) tail from rfl]
    rw [if_neg hpb]
    have hpb2 : pb ++ "<br/>" ++ l ≠ "" := by
      rw [str_ne_empty_iff]
      simp [String.data_append]
    rw [ih _ hpb2]
    cases tail with
    | nil => simp [joinBr]
    | cons m ms =>
      simp only [List.isEmpty_cons, if_neg Bool.false_ne_true, joinBr_cons_cons]
      simp [String.append_assoc]

/-- Accumulating into an empty buffer over a run starting with a nonempty
line is the break-join of the lines. -/
theorem accumPara_empty_start (l : String) (ls : List String) (hl : l ≠ "") :
    accumPara "" (l :: ls) = joinBr (l :: ls) := by
  rw [show accumPara "" (l :: ls) =
    accumPara ("" ++ (if ("" : String) = "" then "" else "<br/>") ++ l) ls from rfl]
  rw [if_pos rfl]
  rw [show ("" ++ "" ++ l : String) = l by simp]
  rw [accumPara_of_ne ls l hl]
  cases ls with
  | nil => simp [joinBr]
  | cons m ms => simp [joinBr_cons_cons]

/-- The break-join of a run starting with a nonempty line is nonempty. -/
theorem joinBr_ne_empty (l : String) (ls : List String) (hl : l ≠ "") :
    joinBr (l :: ls) ≠ "" := by
  cases ls with
  | nil => simpa [joinBr] using hl
  | cons m ms =>
    rw [joinBr_cons_cons, str_ne_empty_iff]
    simp [String.data_append]

/-! ## Claim C7 -/

/-- C7: (a) a nonempty input all of whose lines are markup-free renders to
a single paragraph block holding the lines verbatim, joined by the
line-break marker; (b) the two-line input "1. foo" / "2. bar" renders to
one ordered-list block with exactly two items; (c) a blank line closes an
open list block — emitting its closing tag — before a following
markup-free line starts a new paragraph buffer. -/
theorem renderMarkdown_blocks :
    (∀ t : String, t ≠ "" → (linesOf t).all plainLine = true →
      renderMarkdown t = "<p class=\"my-2\">" ++ joinBr (linesOf t) ++ "</p>") ∧
    renderMarkdown "1. foo\n2. bar" =
      "<ol class=\"list-decimal list-inside my-2 pl-5 space-y-1\"><li>foo</li><li>bar</li></ol>" ∧
    (∀ (h : String) (k : ListKind) (l : String), plainLine l = true →
      stepLine (stepLine { html := h, listType := some k, paraBuffer := "" } "") l =
        { html := h ++ closeTag k, listType := none, paraBuffer := l }) := by
  refine ⟨fun t ht hall => ?_, by decide, fun h k l hl => ?_⟩
  · have hall2 : ∀ l ∈ linesOf t, plainLine l = true := List.all_eq_true.mp hall
    obtain ⟨l0, ls, hsplit⟩ : ∃ l0 ls, linesOf t = l0 :: ls := by
      cases hl : linesOf t with
      | nil => exact absurd hl (linesOf_ne_nil t)
      | cons a b => exact ⟨a, b, rfl⟩
    have hl0 : plainLine l0 = true := hall2 l0 (hsplit ▸ List.mem_cons_self _ _)
    have hl0ne : l0 ≠ "" := plainLine_ne_empty l0 hl0
    rw [renderMarkdown, if_neg ht, hsplit]
    rw [foldl_plain (l0 :: ls) _ rfl (fun x hx => hall2 x (hsplit ▸ hx))]
    rw [show accumPara ({ html := "", listType := none, paraBuffer := "" } : RState).paraBuffer
      (l0 :: ls) = accumPara "" (l0 :: ls) from rfl]
    rw [accumPara_empty_start l0 ls hl0ne]
    have hjne : joinBr (l0 :: ls) ≠ "" := joinBr_ne_empty l0 ls hl0ne
    simp [flushPara, flushList, hjne]
  · have hblank :
        stepLine { html := h, listType := some k, paraBuffer := "" } "" =
          { html := h ++ closeTag k, listType := none, paraBuffer := "" } := by
      have h1 : inlineSub "" = "" := rfl
      have h2 : matchOl "" = none := rfl
      have h3 : matchUl "" = none := rfl
      have h4 : trimStr "" = "" := rfl
      simp [stepLine, h1, h2, h3, h4, flushList, flushPara]
    rw [hblank, stepLine_plain _ l hl rfl]
    simp

/-- Witness for C7 at the concrete markup-free input "hello\nworld". -/
theorem renderMarkdown_blocks_witness :
    ("hello\nworld" : String) ≠ "" ∧
    renderMarkdown "hello\nworld" =
      "<p class=\"my-2\">" ++ joinBr (linesOf "hello\nworld") ++ "</p>" :=
  ⟨by decide, renderMarkdown_blocks.1 "hello\nworld" (by decide) (by decide)⟩

end RagSearch
